import Mathlib

/-!
Verification of the subclip-extraction core of the `man_subclip` repository.

The Python sources are shallowly embedded: floats become exact rationals
(`ℚ`), Python strings become Lean `String`/`List Char`, fallible functions
return `Except`, and the interactions with the filesystem and the external
`ffmpeg`/`ffprobe` tool are modelled by an explicit environment record plus
a trace of the externally visible effects (which command was spawned,
whether a partial output file was deleted).
-/

/-! ## Timecode calculator (`backend/src/utils/timecode.py`) -/

/-- Embedding of `calculate_clip_timecode` from
`backend/src/utils/timecode.py`.  The four `ValueError` branches become
`Except.error` with the source's messages; the success branch returns
`(start_sec, end_sec, duration_sec)`. -/
def calculate_clip_timecode (in_sec out_sec padding_sec video_duration : ℚ) :
    Except String (ℚ × ℚ × ℚ) :=
  if in_sec < 0 then
    .error "in_sec must be >= 0"
  else if out_sec ≤ in_sec then
    .error "out_sec must be > in_sec"
  else if out_sec > video_duration then
    .error "out_sec cannot exceed video duration"
  else if padding_sec < 0 then
    .error "padding_sec must be >= 0"
  else
    let start_sec := max 0 (in_sec - padding_sec)
    let end_sec := min video_duration (out_sec + padding_sec)
    let duration_sec := end_sec - start_sec
    .ok (start_sec, end_sec, duration_sec)

/-- The calculator fails exactly on the four invalid-range conditions. -/
def clipInvalid (in_sec out_sec padding_sec video_duration : ℚ) : Prop :=
  in_sec < 0 ∨ out_sec ≤ in_sec ∨ out_sec > video_duration ∨ padding_sec < 0

instance (i o p d : ℚ) : Decidable (clipInvalid i o p d) := by
  unfold clipInvalid; infer_instance

/-- C1: `calculate_clip_timecode` errors exactly when `in_sec < 0`,
`out_sec ≤ in_sec`, `out_sec > video_duration` or `padding_sec < 0`, and
otherwise returns `(max 0 (in_sec − padding_sec),
min video_duration (out_sec + padding_sec), end − start)`; padding only
clamps, it never causes an error. -/
theorem calculate_clip_timecode_spec (i o p d : ℚ) :
    ((∃ e, calculate_clip_timecode i o p d = .error e) ↔ clipInvalid i o p d) ∧
    (¬ clipInvalid i o p d →
      calculate_clip_timecode i o p d =
        .ok (max 0 (i - p), min d (o + p), min d (o + p) - max 0 (i - p))) := by
  unfold calculate_clip_timecode clipInvalid
  constructor
  · constructor
    · rintro ⟨e, he⟩
      by_contra hcon
      push_neg at hcon
      obtain ⟨h1, h2, h3, h4⟩ := hcon
      rw [if_neg (not_lt.mpr h1), if_neg (not_le.mpr h2), if_neg (not_lt.mpr h3),
        if_neg (not_lt.mpr h4)] at he
      exact Except.noConfusion he
    · intro h
      rcases h with h | h | h | h
      · exact ⟨_, by rw [if_pos h]⟩
      · by_cases h1 : i < 0
        · exact ⟨_, by rw [if_pos h1]⟩
        · exact ⟨_, by rw [if_neg h1, if_pos h]⟩
      · by_cases h1 : i < 0
        · exact ⟨_, by rw [if_pos h1]⟩
        · by_cases h2 : o ≤ i
          · exact ⟨_, by rw [if_neg h1, if_pos h2]⟩
          · exact ⟨_, by rw [if_neg h1, if_neg h2, if_pos h]⟩
      · by_cases h1 : i < 0
        · exact ⟨_, by rw [if_pos h1]⟩
        · by_cases h2 : o ≤ i
          · exact ⟨_, by rw [if_neg h1, if_pos h2]⟩
          · by_cases h3 : o > d
            · exact ⟨_, by rw [if_neg h1, if_neg h2, if_pos h3]⟩
            · exact ⟨_, by rw [if_neg h1, if_neg h2, if_neg h3, if_pos h]⟩
  · intro h
    push_neg at h
    obtain ⟨h1, h2, h3, h4⟩ := h
    rw [if_neg (not_lt.mpr h1), if_neg (not_le.mpr h2), if_neg (not_lt.mpr h3),
      if_neg (not_lt.mpr h4)]

/-- Witness for C1 evaluated at the spec's own example
`calculate_clip_timecode 10 20 3 60 = (7, 23, 16)`, via the theorem. -/
theorem calculate_clip_timecode_spec_witness :
    calculate_clip_timecode 10 20 3 60 = .ok (7, 23, 16) := by
  have h := (calculate_clip_timecode_spec 10 20 3 60).2 (by unfold clipInvalid; norm_num)
  norm_num at h
  exact h

/-- C2: on every valid input the returned triple satisfies
`0 ≤ start_sec < end_sec ≤ video_duration`. -/
theorem calculate_clip_timecode_invariant (i o p d : ℚ)
    (h1 : 0 ≤ i) (h2 : i < o) (h3 : o ≤ d) (h4 : 0 ≤ p) :
    ∃ s e du, calculate_clip_timecode i o p d = .ok (s, e, du) ∧
      0 ≤ s ∧ s < e ∧ e ≤ d := by
  have hvalid : ¬ clipInvalid i o p d := by
    unfold clipInvalid
    push_neg
    exact ⟨h1, h2, not_lt.mp (not_lt.mpr h3), h4⟩
  refine ⟨_, _, _, (calculate_clip_timecode_spec i o p d).2 hvalid, ?_, ?_, ?_⟩
  · exact le_max_left 0 (i - p)
  · refine max_lt ?_ ?_
    · exact lt_min (lt_of_le_of_lt h1 (lt_of_lt_of_le h2 h3)) (by linarith)
    · exact lt_min (by linarith) (by linarith)
  · exact min_le_left d (o + p)

/-- Witness for C2 at `(10, 20, 3, 60)`. -/
theorem calculate_clip_timecode_invariant_witness :
    ∃ s e du, calculate_clip_timecode 10 20 3 60 = .ok (s, e, du) ∧
      0 ≤ s ∧ s < e ∧ e ≤ 60 :=
  calculate_clip_timecode_invariant 10 20 3 60 (by norm_num) (by norm_num)
    (by norm_num) (by norm_num)

/-! ## Local subclip extractor (`backend/src/services/ffmpeg/subclip.py`)
and remote streaming extractor
(`man_subclip/backend/src/services/gcs_streaming.py`).

One invocation of an extractor is modelled as a function of its Python
arguments plus a `ToolEnv` describing what the outside world does on that
call (does the input path exist, does the spawned tool succeed, what is on
its stderr, is a partial output file present when the failure handler
runs, and the output's size on success).  Besides the Python return value
(`Except` of the raised exception) each model returns a `CallTrace`
recording the externally visible effects. -/

/-- The command shapes the extractors hand to the external tool, mirroring
the `ffmpeg.input(...ss, to...)` call of `extract_subclip`, the
`["ffmpeg", "-ss", first, "-i", in, "-ss", second, "-t", dur, ...]` list
of `extract_subclip_double_seek`, and the
`["ffmpeg", "-seekable", "1", "-ss", start, "-i", url, "-t", dur, ...]`
list of `extract_clip_from_gcs_streaming`. -/
inductive FfmpegCall where
  | singleSeek (input : String) (ss : ℚ) (toAbs : ℚ) (codecCopy : Bool)
      (output : String)
  | doubleSeek (firstSeek : ℚ) (input : String) (secondSeek : ℚ)
      (duration : ℚ) (codecCopy : Bool) (output : String)
  | streaming (seekable : Bool) (ss : ℚ) (inputUrl : String) (t : ℚ)
      (codecCopy : Bool) (output : String)
deriving DecidableEq, Repr

/-- Environment of a single extractor call: everything the outside world
decides (filesystem and external tool behaviour). -/
structure ToolEnv where
  inputExists : Bool
  toolSucceeds : Bool
  toolStderr : String
  outputExistsAtFailure : Bool
  outputSizeBytes : ℕ
deriving DecidableEq, Repr

/-- Externally visible effects of one extractor call. -/
structure CallTrace where
  spawned : Option FfmpegCall
  deletedOutput : Bool
deriving DecidableEq, Repr

/-- The exceptions the extractors raise, keyed by the spec's taxonomy:
`sourceNotFound` and `invalidRange` are the `ValueError`s raised during
validation, `extraction` the `ffmpeg.Error`/`Exception` wrapping the
tool's stderr. -/
inductive ExtractError where
  | sourceNotFound (msg : String)
  | invalidRange (msg : String)
  | extraction (msg : String)
deriving DecidableEq, Repr

/-- The dict returned by the local extraction functions: `method` is an
`Option` because `extract_subclip` returns a dict without a `'method'`
key while `extract_subclip_double_seek` includes `'method': 'double_seek'`. -/
structure ExtractionResult where
  file_path : String
  file_size_mb : ℚ
  duration_sec : ℚ
  method : Option String
deriving DecidableEq, Repr

/-- Embedding of `SubclipExtractor.extract_subclip`
(`backend/src/services/ffmpeg/subclip.py`, identical in the
`man_subclip` tree): validate input existence and the time range, build
the single-seek codec-copy command, run it, and either return the result
dict or clean up the partial output and re-raise with the tool's stderr. -/
def extract_subclip (env : ToolEnv) (clips_base_path clip_id input_path : String)
    (start_sec end_sec : ℚ) (output_extension : String) :
    Except ExtractError ExtractionResult × CallTrace :=
  if env.inputExists = false then
    (.error (.sourceNotFound ("Input file not found: " ++ input_path)),
     ⟨none, false⟩)
  else if start_sec < 0 then
    (.error (.invalidRange "start_sec must be >= 0"), ⟨none, false⟩)
  else if end_sec ≤ start_sec then
    (.error (.invalidRange "end_sec must be > start_sec"), ⟨none, false⟩)
  else
    let output_path := clips_base_path ++ "/" ++ clip_id ++ output_extension
    let call := FfmpegCall.singleSeek input_path start_sec end_sec true output_path
    if env.toolSucceeds then
      let file_size_mb : ℚ := (env.outputSizeBytes : ℚ) / (1024 * 1024)
      let duration_sec := end_sec - start_sec
      (.ok ⟨output_path, file_size_mb, duration_sec, none⟩, ⟨some call, false⟩)
    else
      (.error (.extraction ("Failed to extract subclip: " ++ env.toolStderr)),
       ⟨some call, env.outputExistsAtFailure⟩)

/-- Embedding of `SubclipExtractor.extract_subclip_double_seek`
(`backend/src/services/ffmpeg/subclip.py`): same validation, then
`first_seek = max(0, start_sec - pre_seek_buffer)`,
`second_seek = start_sec - first_seek`, `duration = end_sec - start_sec`,
run the double-seek command, return the dict with `'method': 'double_seek'`
or clean up and re-raise the `Exception("ffmpeg failed: " + stderr)`. -/
def extract_subclip_double_seek (env : ToolEnv)
    (clips_base_path clip_id input_path : String)
    (start_sec end_sec : ℚ) (output_extension : String)
    (pre_seek_buffer : ℚ) :
    Except ExtractError ExtractionResult × CallTrace :=
  if env.inputExists = false then
    (.error (.sourceNotFound ("Input file not found: " ++ input_path)),
     ⟨none, false⟩)
  else if start_sec < 0 then
    (.error (.invalidRange "start_sec must be >= 0"), ⟨none, false⟩)
  else if end_sec ≤ start_sec then
    (.error (.invalidRange "end_sec must be > start_sec"), ⟨none, false⟩)
  else
    let output_path := clips_base_path ++ "/" ++ clip_id ++ output_extension
    let first_seek := max 0 (start_sec - pre_seek_buffer)
    let second_seek := start_sec - first_seek
    let duration := end_sec - start_sec
    let call := FfmpegCall.doubleSeek first_seek input_path second_seek
      duration true output_path
    if env.toolSucceeds then
      let file_size_mb : ℚ := (env.outputSizeBytes : ℚ) / (1024 * 1024)
      (.ok ⟨output_path, file_size_mb, duration, some "double_seek"⟩,
       ⟨some call, false⟩)
    else
      (.error (.extraction ("ffmpeg failed: " ++ env.toolStderr)),
       ⟨some call, env.outputExistsAtFailure⟩)

/-- The dict returned by `extract_clip_from_gcs_streaming`. -/
structure StreamingResult where
  success : Bool
  file_size_mb : ℚ
  duration_sec : ℚ
  method : String
deriving DecidableEq, Repr

/-- Python's `round(x, 2)` on the exact rational value. -/
def round2 (x : ℚ) : ℚ := (round (x * 100) : ℚ) / 100

/-- Embedding of `extract_clip_from_gcs_streaming`
(`man_subclip/backend/src/services/gcs_streaming.py`): generate a signed
URL (here: supplied by the environment as `signed_url`), apply padding
without any clamping against a known duration, run the range-seekable
streaming command, and on success report `duration_sec = actual_duration`
and `method = "streaming"`; no validation and no cleanup on failure. -/
def extract_clip_from_gcs_streaming (env : ToolEnv) (signed_url : String)
    (start_sec end_sec : ℚ) (output_path : String) (padding_sec : ℚ) :
    Except ExtractError StreamingResult × CallTrace :=
  let actual_start := max 0 (start_sec - padding_sec)
  let actual_duration := (end_sec - start_sec) + 2 * padding_sec
  let call := FfmpegCall.streaming true actual_start signed_url
    actual_duration true output_path
  if env.toolSucceeds then
    let file_size_mb := round2 ((env.outputSizeBytes : ℚ) / (1024 * 1024))
    (.ok ⟨true, file_size_mb, actual_duration, "streaming"⟩, ⟨some call, false⟩)
  else
    (.error (.extraction ("ffmpeg failed: " ++ env.toolStderr)),
     ⟨some call, false⟩)

/-- C3: `extract_subclip_double_seek` computes
`first_seek = max(0, start_sec − pre_seek_buffer)`,
`second_seek = start_sec − first_seek` (so the two seeks sum to
`start_sec`) and extracts for `end_sec − start_sec`. -/
theorem extract_subclip_double_seek_seeks (env : ToolEnv)
    (base id input ext : String) (s e buf : ℚ)
    (hin : env.inputExists = true) (hs : 0 ≤ s) (hse : s < e) :
    (extract_subclip_double_seek env base id input s e ext buf).2.spawned =
      some (.doubleSeek (max 0 (s - buf)) input (s - max 0 (s - buf))
        (e - s) true (base ++ "/" ++ id ++ ext)) ∧
    max 0 (s - buf) + (s - max 0 (s - buf)) = s := by
  refine ⟨?_, by ring⟩
  unfold extract_subclip_double_seek
  rw [hin]
  rw [if_neg (by simp), if_neg (not_lt.mpr hs), if_neg (not_le.mpr hse)]
  by_cases htool : env.toolSucceeds <;> simp [htool]

/-- Witness for C3 at the spec's degenerate case `start_sec = 5`,
`pre_seek_buffer = 10`: `first_seek = 0`, `second_seek = 5`. -/
theorem extract_subclip_double_seek_seeks_witness :
    (extract_subclip_double_seek ⟨true, true, "", false, 0⟩
        "clips" "c1" "in.mp4" 5 8 ".mp4" 10).2.spawned =
      some (.doubleSeek 0 "in.mp4" 5 3 true "clips/c1.mp4") := by
  have h := (extract_subclip_double_seek_seeks ⟨true, true, "", false, 0⟩
    "clips" "c1" "in.mp4" ".mp4" 5 8 10 rfl (by norm_num) (by norm_num)).1
  norm_num at h
  exact h

/-- C4: the remote streaming extractor applies padding without clamping
against a known duration — it seeks to `max 0 (start − padding)` and
extracts for `(end − start) + 2·padding` — and on tool success returns
`method = "streaming"` with `duration_sec` equal to that padded
duration. -/
theorem extract_clip_from_gcs_streaming_spec (env : ToolEnv)
    (url out : String) (s e pad : ℚ) :
    (extract_clip_from_gcs_streaming env url s e out pad).2.spawned =
      some (.streaming true (max 0 (s - pad)) url ((e - s) + 2 * pad)
        true out) ∧
    (env.toolSucceeds = true →
      (extract_clip_from_gcs_streaming env url s e out pad).1 =
        .ok ⟨true, round2 ((env.outputSizeBytes : ℚ) / (1024 * 1024)),
          (e - s) + 2 * pad, "streaming"⟩) := by
  constructor
  · unfold extract_clip_from_gcs_streaming
    by_cases htool : env.toolSucceeds <;> simp [htool]
  · intro htool
    unfold extract_clip_from_gcs_streaming
    rw [if_pos htool]

/-- Witness for C4: with padding 3 on range `[10, 20]` the command seeks
to `7` and extracts `16` seconds, reported back as `duration_sec`. -/
theorem extract_clip_from_gcs_streaming_spec_witness :
    (extract_clip_from_gcs_streaming ⟨true, true, "", false, 1048576⟩
        "https://signed" 10 20 "out.mp4" 3).2.spawned =
      some (.streaming true 7 "https://signed" 16 true "out.mp4") ∧
    (extract_clip_from_gcs_streaming ⟨true, true, "", false, 1048576⟩
        "https://signed" 10 20 "out.mp4" 3).1 =
      .ok ⟨true, 1, 16, "streaming"⟩ := by
  have h := extract_clip_from_gcs_streaming_spec ⟨true, true, "", false, 1048576⟩
    "https://signed" "out.mp4" 10 20 3
  have h1 := h.1
  have h2 := h.2 rfl
  norm_num at h1
  simp only [round2] at h2
  norm_num [round_eq] at h2
  exact ⟨h1, h2⟩

/-- C5 counterexample: on a successful call `extract_subclip` returns a
dict with no `'method'` key at all (modelled as `method = none`), not one
whose method is `local_copy`. -/
theorem extract_subclip_method_counterexample :
    (extract_subclip ⟨true, true, "", false, 1048576⟩
        "clips" "c1" "in.mp4" 0 5 ".mp4").1 =
      .ok ⟨"clips/c1.mp4", 1, 5, none⟩ ∧
    (none : Option String) ≠ some "local_copy" := by
  refine ⟨?_, by simp⟩
  have h : (extract_subclip ⟨true, true, "", false, 1048576⟩
      "clips" "c1" "in.mp4" 0 5 ".mp4").1 =
      .ok ⟨"clips" ++ "/" ++ "c1" ++ ".mp4", (1048576 : ℚ) / (1024 * 1024),
        5 - 0, none⟩ := by
    unfold extract_subclip
    norm_num
  norm_num at h
  exact h

/-- C5 (amended): on success `extract_subclip` returns `duration_sec =
end_sec − start_sec` and `file_size_mb` computed from the output file's
byte size on the filesystem, but the returned dict carries no `method`
field (`method = none`), unlike the double-seek and streaming paths. -/
theorem extract_subclip_success (env : ToolEnv)
    (base id input ext : String) (s e : ℚ)
    (hin : env.inputExists = true) (hs : 0 ≤ s) (hse : s < e)
    (htool : env.toolSucceeds = true) :
    (extract_subclip env base id input s e ext).1 =
      .ok ⟨base ++ "/" ++ id ++ ext, (env.outputSizeBytes : ℚ) / (1024 * 1024),
        e - s, none⟩ := by
  unfold extract_subclip
  rw [hin]
  rw [if_neg (by simp), if_neg (not_lt.mpr hs), if_neg (not_le.mpr hse),
    if_pos htool]

/-- Witness for the amended C5 at a concrete successful call. -/
theorem extract_subclip_success_witness :
    (extract_subclip ⟨true, true, "", false, 2097152⟩
        "clips" "c2" "in.mp4" 2 6 ".mp4").1 =
      .ok ⟨"clips/c2.mp4", 2, 4, none⟩ := by
  have h := extract_subclip_success ⟨true, true, "", false, 2097152⟩
    "clips" "c2" "in.mp4" ".mp4" 2 6 rfl (by norm_num) (by norm_num) rfl
  norm_num at h
  exact h

/-- C6: when the spawned tool fails, both local extraction operations
delete the partial output file exactly when one exists and raise an
extraction error wrapping the tool's stderr — neither ever returns a
(partial) result. -/
theorem local_extractors_cleanup_on_failure (env : ToolEnv)
    (base id input ext : String) (s e buf : ℚ)
    (hin : env.inputExists = true) (hs : 0 ≤ s) (hse : s < e)
    (htool : env.toolSucceeds = false) :
    extract_subclip env base id input s e ext =
      (.error (.extraction ("Failed to extract subclip: " ++ env.toolStderr)),
       ⟨some (.singleSeek input s e true (base ++ "/" ++ id ++ ext)),
        env.outputExistsAtFailure⟩) ∧
    extract_subclip_double_seek env base id input s e ext buf =
      (.error (.extraction ("ffmpeg failed: " ++ env.toolStderr)),
       ⟨some (.doubleSeek (max 0 (s - buf)) input (s - max 0 (s - buf))
          (e - s) true (base ++ "/" ++ id ++ ext)),
        env.outputExistsAtFailure⟩) := by
  constructor
  · unfold extract_subclip
    rw [hin]
    rw [if_neg (by simp), if_neg (not_lt.mpr hs), if_neg (not_le.mpr hse),
      if_neg (by rw [htool]; simp)]
  · unfold extract_subclip_double_seek
    rw [hin]
    rw [if_neg (by simp), if_neg (not_lt.mpr hs), if_neg (not_le.mpr hse),
      if_neg (by rw [htool]; simp)]

/-- Witness for C6: a concrete failing call deletes the existing partial
output and raises the wrapped stderr. -/
theorem local_extractors_cleanup_on_failure_witness :
    extract_subclip ⟨true, false, "boom", true, 0⟩
        "clips" "c3" "in.mp4" 1 4 ".mp4" =
      (.error (.extraction "Failed to extract subclip: boom"),
       ⟨some (.singleSeek "in.mp4" 1 4 true "clips/c3.mp4"), true⟩) ∧
    extract_subclip_double_seek ⟨true, false, "boom", true, 0⟩
        "clips" "c3" "in.mp4" 1 4 ".mp4" 10 =
      (.error (.extraction "ffmpeg failed: boom"),
       ⟨some (.doubleSeek 0 "in.mp4" 1 3 true "clips/c3.mp4"), true⟩) := by
  have h := local_extractors_cleanup_on_failure ⟨true, false, "boom", true, 0⟩
    "clips" "c3" "in.mp4" ".mp4" 1 4 10 rfl (by norm_num) (by norm_num) rfl
  have h1 := h.1
  have h2 := h.2
  norm_num at h2
  exact ⟨h1, h2⟩

/-- C7: both local extraction operations validate before spawning the
tool: a missing input raises `sourceNotFound`, a negative `start_sec` or
`end_sec ≤ start_sec` raises `invalidRange`, and in each of these cases
no external command is spawned (and nothing is deleted). -/
theorem local_extractors_validate (env : ToolEnv)
    (base id input ext : String) (s e buf : ℚ) :
    (env.inputExists = false →
      extract_subclip env base id input s e ext =
        (.error (.sourceNotFound ("Input file not found: " ++ input)),
         ⟨none, false⟩) ∧
      extract_subclip_double_seek env base id input s e ext buf =
        (.error (.sourceNotFound ("Input file not found: " ++ input)),
         ⟨none, false⟩)) ∧
    (env.inputExists = true → s < 0 →
      extract_subclip env base id input s e ext =
        (.error (.invalidRange "start_sec must be >= 0"), ⟨none, false⟩) ∧
      extract_subclip_double_seek env base id input s e ext buf =
        (.error (.invalidRange "start_sec must be >= 0"), ⟨none, false⟩)) ∧
    (env.inputExists = true → 0 ≤ s → e ≤ s →
      extract_subclip env base id input s e ext =
        (.error (.invalidRange "end_sec must be > start_sec"), ⟨none, false⟩) ∧
      extract_subclip_double_seek env base id input s e ext buf =
        (.error (.invalidRange "end_sec must be > start_sec"), ⟨none, false⟩)) := by
  refine ⟨fun hin => ?_, fun hin hneg => ?_, fun hin hs hes => ?_⟩
  · constructor
    · unfold extract_subclip
      rw [hin, if_pos rfl]
    · unfold extract_subclip_double_seek
      rw [hin, if_pos rfl]
  · constructor
    · unfold extract_subclip
      rw [hin]
      rw [if_neg (by simp), if_pos hneg]
    · unfold extract_subclip_double_seek
      rw [hin]
      rw [if_neg (by simp), if_pos hneg]
  · constructor
    · unfold extract_subclip
      rw [hin]
      rw [if_neg (by simp), if_neg (not_lt.mpr hs), if_pos hes]
    · unfold extract_subclip_double_seek
      rw [hin]
      rw [if_neg (by simp), if_neg (not_lt.mpr hs), if_pos hes]

/-- Witness for C7: each validation failure shown at a concrete call, and
in each the trace records that no command was spawned. -/
theorem local_extractors_validate_witness :
    (extract_subclip ⟨false, true, "", false, 0⟩
        "clips" "c4" "missing.mp4" 0 5 ".mp4").2.spawned = none ∧
    (extract_subclip ⟨true, true, "", false, 0⟩
        "clips" "c4" "in.mp4" (-1) 5 ".mp4").1 =
      .error (.invalidRange "start_sec must be >= 0") ∧
    (extract_subclip_double_seek ⟨true, true, "", false, 0⟩
        "clips" "c4" "in.mp4" 5 5 ".mp4" 10).1 =
      .error (.invalidRange "end_sec must be > start_sec") := by
  have h1 := (local_extractors_validate ⟨false, true, "", false, 0⟩
    "clips" "c4" "missing.mp4" ".mp4" 0 5 10).1 rfl
  have h2 := ((local_extractors_validate ⟨true, true, "", false, 0⟩
    "clips" "c4" "in.mp4" ".mp4" (-1) 5 10).2.1 rfl (by norm_num)).1
  have h3 := ((local_extractors_validate ⟨true, true, "", false, 0⟩
    "clips" "c4" "in.mp4" ".mp4" 5 5 10).2.2 rfl (by norm_num) le_rfl).2
  refine ⟨?_, ?_, ?_⟩
  · rw [h1.1]
  · rw [congrArg Prod.fst h2]
  · rw [congrArg Prod.fst h3]

/-! ## Media probers
(`man_subclip/backend/src/services/video_metadata.py` and
`get_video_metadata_from_gcs_streaming` in
`man_subclip/backend/src/services/gcs_streaming.py`).

The probe tool's JSON output is abstracted into `ProbeResult`: a list of
streams plus a format block, with `Option` fields for keys the container
may omit, and the rational `r_frame_rate` string already split into its
`num/den` integer pair. -/

/-- One entry of the probe output's `streams` array. -/
structure ProbeStream where
  codec_type : String
  r_frame_rate : Option (ℤ × ℤ)
  width : Option ℤ
  height : Option ℤ
deriving DecidableEq, Repr

/-- The probe output's `format` block. -/
structure ProbeFormat where
  duration : Option ℚ
  size : Option ℤ
deriving DecidableEq, Repr

/-- Structured output of a successful probe. -/
structure ProbeResult where
  streams : List ProbeStream
  format : ProbeFormat
deriving DecidableEq, Repr

/-- Errors of the local prober, keyed by the spec's taxonomy. -/
inductive ProbeError where
  | noVideoStream (msg : String)
  | probeFailure (msg : String)
deriving DecidableEq, Repr

/-- `MediaMetadata` as produced by the local prober: `fps`, `width` and
`height` are optional. -/
structure MediaMetadata where
  duration_sec : ℚ
  fps : Option ℤ
  width : Option ℤ
  height : Option ℤ
  file_size_mb : ℚ
deriving DecidableEq, Repr

/-- Python's `int()` truncation toward zero on an exact rational. -/
def intTrunc (q : ℚ) : ℤ := q.num / (q.den : ℤ)

/-- Embedding of `VideoMetadata.extract_metadata`
(`man_subclip/backend/src/services/video_metadata.py`): find the video
stream, read `duration`/`size` with default `0`, and set
`fps = int(num/den)` only when the `r_frame_rate` field is present with a
non-zero denominator, `None` otherwise. -/
def extract_metadata (probe : Except String ProbeResult) :
    Except ProbeError MediaMetadata :=
  match probe with
  | .error e => .error (.probeFailure ("Failed to extract metadata: " ++ e))
  | .ok p =>
    match p.streams.find? (fun s => s.codec_type = "video") with
    | none => .error (.noVideoStream "No video stream found")
    | some vs =>
      let duration_sec := p.format.duration.getD 0
      let fps : Option ℤ :=
        match vs.r_frame_rate with
        | none => none
        | some (num, den) =>
          if den ≠ 0 then some (intTrunc ((num : ℚ) / (den : ℚ))) else none
      let file_size_mb := ((p.format.size.getD 0 : ℤ) : ℚ) / (1024 * 1024)
      .ok ⟨duration_sec, fps, vs.width, vs.height, file_size_mb⟩

/-- The dict built by the remote streaming prober: every field is
mandatory because the Python code indexes the JSON without defaults. -/
structure RemoteMetadata where
  duration_sec : ℚ
  width : ℤ
  height : ℤ
  fps : ℚ
  file_size_mb : ℚ
  method : String
deriving DecidableEq, Repr

/-- Embedding of `get_video_metadata_from_gcs_streaming`
(`man_subclip/backend/src/services/gcs_streaming.py`): unlike the local
prober it indexes `duration`, `width`, `height`, `size` directly
(`KeyError` when absent) and computes `fps` as `eval(r_frame_rate)` —
a `KeyError` when the field is absent and a `ZeroDivisionError` when the
denominator is zero. -/
def get_video_metadata_from_gcs_streaming (probe : Except String ProbeResult) :
    Except String RemoteMetadata :=
  match probe with
  | .error e => .error ("ffprobe failed: " ++ e)
  | .ok p =>
    match p.streams.find? (fun s => s.codec_type = "video") with
    | none => .error "No video stream found"
    | some vs =>
      match p.format.duration, vs.width, vs.height, vs.r_frame_rate,
          p.format.size with
      | some dur, some w, some h, some (num, den), some sz =>
        if den = 0 then .error "ZeroDivisionError: division by zero"
        else
          .ok ⟨dur, w, h, (num : ℚ) / (den : ℚ), (sz : ℚ) / (1024 * 1024),
            "streaming"⟩
      | _, _, _, _, _ => .error "KeyError"

/-- A probe result whose single video stream reports the degenerate
frame rate `30/0`, with all other fields present. -/
def probeZeroDen : ProbeResult :=
  ⟨[⟨"video", some (30, 0), some 1920, some 1080⟩], ⟨some 60, some 1048576⟩⟩

/-- C8 counterexample: on a stream whose frame-rate denominator is zero
the remote streaming prober raises (a `ZeroDivisionError` from
`eval(video_stream["r_frame_rate"])`) instead of reporting a null fps,
so the claimed never-raises behaviour fails for the remote companion. -/
theorem remote_metadata_fps_counterexample :
    get_video_metadata_from_gcs_streaming (.ok probeZeroDen) =
      .error "ZeroDivisionError: division by zero" := by
  rfl

/-- C8 (amended): the local prober computes fps from the rational
`num/den` field and returns a null fps — without raising — whenever the
field is absent or its denominator is zero; the remote streaming
companion instead raises in both of those cases (`KeyError` on an absent
field, `ZeroDivisionError` on a zero denominator). -/
theorem metadata_fps_null_handling (rest : List ProbeStream)
    (rate : Option (ℤ × ℤ)) (w h : Option ℤ) (fmt : ProbeFormat)
    (hnull : rate = none ∨ ∃ num, rate = some (num, 0)) :
    (∃ m, extract_metadata (.ok ⟨⟨"video", rate, w, h⟩ :: rest, fmt⟩) =
        .ok m ∧ m.fps = none) ∧
    (∀ wv hv dur sz, w = some wv → h = some hv →
      fmt.duration = some dur → fmt.size = some sz →
      ∃ e, get_video_metadata_from_gcs_streaming
          (.ok ⟨⟨"video", rate, w, h⟩ :: rest, fmt⟩) = .error e) := by
  constructor
  · refine ⟨⟨fmt.duration.getD 0, none, w, h,
      ((fmt.size.getD 0 : ℤ) : ℚ) / (1024 * 1024)⟩, ?_, rfl⟩
    unfold extract_metadata
    rcases hnull with hr | ⟨num, hr⟩ <;> subst hr <;> simp [List.find?]
  · intro wv hv dur sz hw hh hdur hsz
    subst hw hh
    unfold get_video_metadata_from_gcs_streaming
    rcases hnull with hr | ⟨num, hr⟩ <;> subst hr <;>
      simp [List.find?, hdur, hsz]

/-- Witness for the amended C8: a concrete absent-field stream gives
`fps = none` locally and a `KeyError` remotely. -/
theorem metadata_fps_null_handling_witness :
    (∃ m, extract_metadata
        (.ok ⟨[⟨"video", none, some 640, some 480⟩], ⟨some 10, some 4096⟩⟩) =
        .ok m ∧ m.fps = none) ∧
    (∃ e, get_video_metadata_from_gcs_streaming
        (.ok ⟨[⟨"video", none, some 640, some 480⟩], ⟨some 10, some 4096⟩⟩) =
        .error e) := by
  have h := metadata_fps_null_handling [] none (some 640) (some 480)
    ⟨some 10, some 4096⟩ (Or.inl rfl)
  exact ⟨h.1, h.2 640 480 10 4096 rfl rfl rfl rfl⟩

/-! ## Timecode formatting and parsing (`backend/src/utils/timecode.py`)

Python strings are embedded as `List Char` (wrapped into `String` at the
function boundary).  `format_timecode`'s f-string `%02d`/`%06.3f`
rendering and `parse_timecode`'s `str.split(':')` / `int()` / `float()`
are translated directly; the decimal fragment of Python's `int()` and
`float()` literals (optional sign, digits, one optional decimal point) is
modelled.  The rounding Python's float formatting performs at the third
decimal is the exact round-to-nearest on the rational value. -/

/-- ASCII decimal digit test, as used by Python's `int()`/`float()`. -/
def isDigitC (c : Char) : Bool := 48 ≤ c.toNat && c.toNat ≤ 57

/-- The whitespace stripped by Python's `str.strip()`. -/
def isSpaceC (c : Char) : Bool :=
  c = ' ' || c = '\t' || c = '\n' || c = '\x0d' || c = '\x0b' || c = '\x0c'

/-- The decimal digit character for `d < 10`. -/
def digitChar (d : ℕ) : Char := Char.ofNat (48 + d)

/-- Numeric value of a digit character. -/
def digitVal (c : Char) : ℕ := c.toNat - 48

/-- Decimal rendering of a natural number, most significant digit
first — the core of Python's `%d` formatting. -/
def natChars (n : ℕ) : List Char :=
  if n < 10 then [digitChar n]
  else natChars (n / 10) ++ [digitChar (n % 10)]
decreasing_by exact Nat.div_lt_self (by omega) (by omega)

/-- Zero-pad a rendered number on the left to width `w`, as `%0wd` and
`%0w.3f` do. -/
def padZero (w : ℕ) (l : List Char) : List Char :=
  List.replicate (w - l.length) '0' ++ l

/-- Python's `f"{n:02d}"` for an integer. -/
def intPad2 (n : ℤ) : List Char :=
  if n < 0 then '-' :: natChars n.natAbs else padZero 2 (natChars n.toNat)

/-- Python's `%` on floats: `a - b * ⌊a / b⌋` (sign follows the divisor). -/
def qmod (a b : ℚ) : ℚ := a - b * ⌊a / b⌋

/-- Python's `f"{secs:06.3f}"` for the nonnegative seconds field: round
to the nearest thousandth, then render `SS.mmm` zero-padded to width 6. -/
def secondsField (secs : ℚ) : List Char :=
  let millis := (round (secs * 1000)).toNat
  padZero 2 (natChars (millis / 1000)) ++ '.' :: padZero 3 (natChars (millis % 1000))

/-- Embedding of `format_timecode`
(`backend/src/utils/timecode.py`): `hours = int(seconds // 3600)`,
`minutes = int((seconds % 3600) // 60)`, `secs = seconds % 60`, rendered
as `f"{hours:02d}:{minutes:02d}:{secs:06.3f}"`. -/
def format_timecode (t : ℚ) : String :=
  ⟨intPad2 ⌊t / 3600⌋ ++ ':' :: intPad2 ⌊qmod t 3600 / 60⌋ ++ ':' ::
    secondsField (qmod t 60)⟩

/-- Python's `str.split(sep)` for a one-character separator: splitting
the empty string gives `[""]`, and separators at the ends produce empty
fields. -/
def splitOnChar (sep : Char) : List Char → List (List Char)
  | [] => [[]]
  | c :: rest =>
    let r := splitOnChar sep rest
    if c = sep then [] :: r else (c :: r.headI) :: r.tail

/-- Python's `str.strip()`: drop whitespace from both ends. -/
def stripChars (l : List Char) : List Char :=
  ((l.dropWhile isSpaceC).reverse.dropWhile isSpaceC).reverse

/-- Value of a digit string, most significant digit first. -/
def digitsVal (l : List Char) : ℕ :=
  l.foldl (fun a c => 10 * a + digitVal c) 0

/-- A nonempty all-digit string parses to its value, anything else is
rejected — the core of Python's `int()`/`float()` on unsigned digits. -/
def parseDigits (l : List Char) : Option ℕ :=
  if l ≠ [] ∧ l.all isDigitC then some (digitsVal l) else none

/-- Python's `int(text)` (decimal fragment): optional sign, then a
nonempty digit string; no range restriction. -/
def parseInt (l : List Char) : Option ℤ :=
  if l.head? = some '-' then (parseDigits l.tail).map (fun n => -(n : ℤ))
  else if l.head? = some '+' then (parseDigits l.tail).map (fun n => (n : ℤ))
  else (parseDigits l).map (fun n => (n : ℤ))

/-- Unsigned part of Python's `float(text)` (decimal fragment): digits
with at most one decimal point, at least one digit overall. -/
def parseUFloat (l : List Char) : Option ℚ :=
  match splitOnChar '.' l with
  | [a] => (parseDigits a).map (fun n => (n : ℚ))
  | [a, b] =>
    if (a ≠ [] ∨ b ≠ []) ∧ a.all isDigitC ∧ b.all isDigitC then
      some ((digitsVal a : ℚ) + (digitsVal b : ℚ) / 10 ^ b.length)
    else none
  | _ => none

/-- Python's `float(text)` (decimal fragment): optional sign, then an
unsigned decimal; no range restriction. -/
def parseFloat (l : List Char) : Option ℚ :=
  if l.head? = some '-' then (parseUFloat l.tail).map (fun q => -q)
  else if l.head? = some '+' then parseUFloat l.tail
  else parseUFloat l

/-- Embedding of `parse_timecode` (`backend/src/utils/timecode.py`):
strip, split on `':'`, and interpret 3 fields as `HH:MM:SS.mmm`, 2 as
`MM:SS.mmm`, 1 as `SS.mmm`; any other field count or a non-numeric
component raises `ValueError` (`TimecodeParseError` in the spec). -/
def parse_timecode (s : String) : Except String ℚ :=
  match splitOnChar ':' (stripChars s.data) with
  | [p0] =>
    match parseFloat p0 with
    | some v => .ok v
    | none => .error ("Invalid timecode format: " ++ s)
  | [p0, p1] =>
    match parseInt p0, parseFloat p1 with
    | some m, some sec => .ok ((m : ℚ) * 60 + sec)
    | _, _ => .error ("Invalid timecode format: " ++ s)
  | [p0, p1, p2] =>
    match parseInt p0, parseInt p1, parseFloat p2 with
    | some h, some m, some sec =>
      .ok ((h : ℚ) * 3600 + (m : ℚ) * 60 + sec)
    | _, _, _ => .error ("Invalid timecode format: " ++ s)
  | _ => .error ("Invalid timecode format: " ++ s)

/-! ### Digit-string lemmas -/

theorem digitChar_toNat {d : ℕ} (h : d < 10) : (digitChar d).toNat = 48 + d := by
  interval_cases d <;> rfl

theorem isDigitC_digitChar {d : ℕ} (h : d < 10) : isDigitC (digitChar d) = true := by
  simp only [isDigitC, digitChar_toNat h, Bool.and_eq_true, decide_eq_true_eq]
  omega

theorem digitVal_digitChar {d : ℕ} (h : d < 10) : digitVal (digitChar d) = d := by
  simp [digitVal, digitChar_toNat h]

theorem natChars_ne_nil (n : ℕ) : natChars n ≠ [] := by
  rw [natChars]
  split <;> simp

theorem natChars_all_digits (n : ℕ) : ∀ c ∈ natChars n, isDigitC c = true := by
  induction n using Nat.strong_induction_on with
  | _ n ih =>
    rw [natChars]
    split
    · next h =>
      intro c hc
      rw [List.mem_singleton] at hc
      subst hc
      exact isDigitC_digitChar h
    · next h =>
      intro c hc
      rw [List.mem_append] at hc
      rcases hc with hc | hc
      · exact ih (n / 10) (Nat.div_lt_self (by omega) (by omega)) c hc
      · rw [List.mem_singleton] at hc
        subst hc
        exact isDigitC_digitChar (Nat.mod_lt _ (by omega))

theorem digitsVal_append_singleton (l : List Char) (c : Char) :
    digitsVal (l ++ [c]) = 10 * digitsVal l + digitVal c := by
  simp [digitsVal, List.foldl_append]

theorem digitsVal_natChars (n : ℕ) : digitsVal (natChars n) = n := by
  induction n using Nat.strong_induction_on with
  | _ n ih =>
    rw [natChars]
    split
    · next h => simp [digitsVal, digitVal_digitChar h]
    · next h =>
      rw [digitsVal_append_singleton,
        ih (n / 10) (Nat.div_lt_self (by omega) (by omega)),
        digitVal_digitChar (Nat.mod_lt _ (by omega))]
      omega

theorem natChars_length_le : ∀ (k n : ℕ), 1 ≤ k → n < 10 ^ k →
    (natChars n).length ≤ k
  | 0, _, hk, _ => absurd hk (by omega)
  | k + 1, n, _, h => by
    rw [natChars]
    split
    · simp
    · next h10 =>
      push_neg at h10
      have hk1 : 1 ≤ k := by
        rcases Nat.eq_zero_or_pos k with hk0 | hk0
        · subst hk0; simp at h; omega
        · exact hk0
      have hdiv : n / 10 < 10 ^ k := by
        rw [Nat.div_lt_iff_lt_mul (by omega)]
        calc n < 10 ^ (k + 1) := h
          _ = 10 ^ k * 10 := by ring
      have hrec := natChars_length_le k (n / 10) hk1 hdiv
      simp only [List.length_append, List.length_singleton]
      omega

theorem padZero_all_digits {l : List Char}
    (h : ∀ c ∈ l, isDigitC c = true) (w : ℕ) :
    ∀ c ∈ padZero w l, isDigitC c = true := by
  intro c hc
  rw [padZero, List.mem_append] at hc
  rcases hc with hc | hc
  · rw [List.eq_of_mem_replicate hc]
    rfl
  · exact h c hc

theorem padZero_ne_nil {l : List Char} (h : l ≠ []) (w : ℕ) :
    padZero w l ≠ [] := by
  simp [padZero, h]

theorem padZero_length {l : List Char} {w : ℕ} (h : l.length ≤ w) :
    (padZero w l).length = w := by
  simp [padZero]
  omega

theorem foldl_digits_replicate_zero (m : ℕ) :
    List.foldl (fun a c => 10 * a + digitVal c) 0 (List.replicate m '0') = 0 := by
  induction m with
  | zero => rfl
  | succ m ih => simpa [List.replicate_succ, digitVal] using ih

theorem digitsVal_padZero (w : ℕ) (l : List Char) :
    digitsVal (padZero w l) = digitsVal l := by
  rw [padZero, digitsVal, digitsVal, List.foldl_append,
    foldl_digits_replicate_zero]

/-! ### Parsing lemmas -/

theorem parseDigits_digits {l : List Char} (hne : l ≠ [])
    (hd : ∀ c ∈ l, isDigitC c = true) : parseDigits l = some (digitsVal l) := by
  unfold parseDigits
  rw [if_pos ⟨hne, List.all_eq_true.mpr hd⟩]

theorem parseInt_digits {l : List Char} (hne : l ≠ [])
    (hd : ∀ c ∈ l, isDigitC c = true) :
    parseInt l = some (digitsVal l : ℤ) := by
  unfold parseInt
  cases l with
  | nil => exact absurd rfl hne
  | cons c cs =>
    have hc := hd c (List.mem_cons_self c cs)
    have h1 : c ≠ '-' := by rintro rfl; exact absurd hc (by decide)
    have h2 : c ≠ '+' := by rintro rfl; exact absurd hc (by decide)
    rw [if_neg (by simp [h1]), if_neg (by simp [h2]),
      parseDigits_digits hne hd]
    rfl

theorem parseInt_intPad2 {n : ℤ} (hn : 0 ≤ n) :
    parseInt (intPad2 n) = some n := by
  unfold intPad2
  rw [if_neg (not_lt.mpr hn),
    parseInt_digits (padZero_ne_nil (natChars_ne_nil _) 2)
      (padZero_all_digits (natChars_all_digits _) 2),
    digitsVal_padZero, digitsVal_natChars, Int.toNat_of_nonneg hn]

theorem splitOnChar_ne_nil (sep : Char) (l : List Char) :
    splitOnChar sep l ≠ [] := by
  cases l with
  | nil => simp [splitOnChar]
  | cons c cs =>
    rw [splitOnChar]
    split <;> simp

theorem splitOnChar_not_mem {sep : Char} {l : List Char} (h : sep ∉ l) :
    splitOnChar sep l = [l] := by
  induction l with
  | nil => rfl
  | cons c cs ih =>
    rw [List.mem_cons, not_or] at h
    rw [splitOnChar]
    simp only [ih h.2]
    rw [if_neg (fun e => h.1 e.symm)]
    rfl

theorem splitOnChar_append {sep : Char} {a rest : List Char} (h : sep ∉ a) :
    splitOnChar sep (a ++ sep :: rest) = a :: splitOnChar sep rest := by
  induction a with
  | nil =>
    rw [List.nil_append, splitOnChar, if_pos rfl]
  | cons c cs ih =>
    rw [List.mem_cons, not_or] at h
    rw [List.cons_append, splitOnChar]
    simp only [ih h.2]
    rw [if_neg (fun e => h.1 e.symm)]
    rfl

theorem isDigitC_ne_colon {c : Char} (h : isDigitC c = true) : c ≠ ':' := by
  rintro rfl; exact absurd h (by decide)

theorem isDigitC_ne_dot {c : Char} (h : isDigitC c = true) : c ≠ '.' := by
  rintro rfl; exact absurd h (by decide)

theorem isDigitC_not_space {c : Char} (h : isDigitC c = true) :
    isSpaceC c = false := by
  revert h
  unfold isDigitC isSpaceC
  rcases c with ⟨⟨v, hv⟩⟩
  simp only [Char.toNat, Bool.and_eq_true, decide_eq_true_eq, Bool.or_eq_false_iff,
    decide_eq_false_iff_not, and_imp]
  intro h1 h2
  refine ⟨⟨⟨⟨⟨?_, ?_⟩, ?_⟩, ?_⟩, ?_⟩, ?_⟩ <;>
    · intro he
      rw [Char.ext_iff] at he
      simp only [UInt32.ext_iff] at he
      simp only [he] at h1 h2
      revert h1 h2
      decide

theorem dropWhile_eq_self_of_none {p : Char → Bool} {l : List Char}
    (h : ∀ c ∈ l, p c = false) : l.dropWhile p = l := by
  cases l with
  | nil => rfl
  | cons c cs =>
    rw [List.dropWhile_cons, h c (List.mem_cons_self c cs)]
    simp

theorem stripChars_eq_self {l : List Char}
    (h : ∀ c ∈ l, isSpaceC c = false) : stripChars l = l := by
  unfold stripChars
  rw [dropWhile_eq_self_of_none h,
    dropWhile_eq_self_of_none (fun c hc => h c (List.mem_reverse.mp hc)),
    List.reverse_reverse]

/-! ### Python float-mod lemmas -/

theorem qmod_nonneg {a b : ℚ} (hb : 0 < b) : 0 ≤ qmod a b := by
  unfold qmod
  have := Int.floor_le (a / b)
  have hmul : (⌊a / b⌋ : ℚ) * b ≤ (a / b) * b :=
    mul_le_mul_of_nonneg_right this (le_of_lt hb)
  rw [div_mul_cancel₀ a (ne_of_gt hb)] at hmul
  linarith

theorem qmod_lt {a b : ℚ} (hb : 0 < b) : qmod a b < b := by
  unfold qmod
  have := Int.lt_floor_add_one (a / b)
  have hmul : (a / b) * b < ((⌊a / b⌋ : ℚ) + 1) * b :=
    mul_lt_mul_of_pos_right this hb
  rw [div_mul_cancel₀ a (ne_of_gt hb)] at hmul
  linarith

theorem hours_minutes_secs (t : ℚ) :
    (⌊t / 3600⌋ : ℚ) * 3600 + (⌊qmod t 3600 / 60⌋ : ℚ) * 60 + qmod t 60 = t := by
  have h1 : qmod t 3600 / 60 = t / 60 - ((60 * ⌊t / 3600⌋ : ℤ) : ℚ) := by
    unfold qmod
    push_cast
    ring
  have h2 : ⌊qmod t 3600 / 60⌋ = ⌊t / 60⌋ - 60 * ⌊t / 3600⌋ := by
    rw [h1, Int.floor_sub_int]
  rw [h2, qmod]
  push_cast
  ring

theorem parseFloat_secondsField (secs : ℚ) (hs : 0 ≤ secs) :
    parseFloat (secondsField secs) =
      some (((round (secs * 1000) : ℤ) : ℚ) / 1000) := by
  have hround : (0 : ℤ) ≤ round (secs * 1000) := by
    rw [round_eq]
    exact Int.floor_nonneg.mpr (by positivity)
  have hsf : secondsField secs =
      padZero 2 (natChars ((round (secs * 1000)).toNat / 1000)) ++
        '.' :: padZero 3 (natChars ((round (secs * 1000)).toNat % 1000)) := rfl
  set m := (round (secs * 1000)).toNat with hmdef
  have hAdig : ∀ c ∈ padZero 2 (natChars (m / 1000)), isDigitC c = true :=
    padZero_all_digits (natChars_all_digits _) 2
  have hBdig : ∀ c ∈ padZero 3 (natChars (m % 1000)), isDigitC c = true :=
    padZero_all_digits (natChars_all_digits _) 3
  have hAne : padZero 2 (natChars (m / 1000)) ≠ [] :=
    padZero_ne_nil (natChars_ne_nil _) 2
  have hBlen : (padZero 3 (natChars (m % 1000))).length = 3 :=
    padZero_length (natChars_length_le 3 (m % 1000) (by norm_num)
      (by have := Nat.mod_lt m (show 0 < 1000 by norm_num); omega))
  have hdotA : '.' ∉ padZero 2 (natChars (m / 1000)) :=
    fun hm => isDigitC_ne_dot (hAdig '.' hm) rfl
  have hdotB : '.' ∉ padZero 3 (natChars (m % 1000)) :=
    fun hm => isDigitC_ne_dot (hBdig '.' hm) rfl
  rw [hsf]
  obtain ⟨c, cs, hAcons⟩ : ∃ c cs, padZero 2 (natChars (m / 1000)) = c :: cs := by
    cases hA : padZero 2 (natChars (m / 1000)) with
    | nil => exact absurd hA hAne
    | cons c cs => exact ⟨c, cs, rfl⟩
  have hcdig : isDigitC c = true := hAdig c (hAcons ▸ List.mem_cons_self c cs)
  have hcm : c ≠ '-' := fun e => absurd (e ▸ hcdig) (by decide)
  have hcp : c ≠ '+' := fun e => absurd (e ▸ hcdig) (by decide)
  unfold parseFloat
  rw [hAcons, List.cons_append, List.head?_cons,
    if_neg (by simp [hcm]), if_neg (by simp [hcp]),
    ← List.cons_append, ← hAcons]
  unfold parseUFloat
  rw [splitOnChar_append hdotA, splitOnChar_not_mem hdotB]
  simp only
  rw [if_pos ⟨Or.inl hAne,
    List.all_eq_true.mpr hAdig, List.all_eq_true.mpr hBdig⟩]
  rw [digitsVal_padZero, digitsVal_padZero, digitsVal_natChars,
    digitsVal_natChars, hBlen]
  have hmcast : ((m : ℕ) : ℚ) = ((round (secs * 1000) : ℤ) : ℚ) := by
    rw [hmdef]
    exact_mod_cast congrArg (Int.cast : ℤ → ℚ) (Int.toNat_of_nonneg hround)
  have hdm : ((m / 1000 : ℕ) : ℚ) * 1000 + ((m % 1000 : ℕ) : ℚ) = (m : ℚ) := by
    exact_mod_cast congrArg (Nat.cast : ℕ → ℚ)
      (show m / 1000 * 1000 + m % 1000 = m by omega)
  rw [← hmcast]
  congr 1
  have h1000 : ((10 : ℚ) ^ 3) = 1000 := by norm_num
  rw [h1000]
  field_simp
  linarith [hdm]

theorem intPad2_digits {n : ℤ} (hn : 0 ≤ n) :
    ∀ c ∈ intPad2 n, isDigitC c = true := by
  rw [intPad2, if_neg (not_lt.mpr hn)]
  exact padZero_all_digits (natChars_all_digits _) 2

theorem secondsField_chars (secs : ℚ) :
    ∀ c ∈ secondsField secs, isDigitC c = true ∨ c = '.' := by
  intro c hc
  unfold secondsField at hc
  simp only [List.mem_append, List.mem_cons] at hc
  rcases hc with hc | hc | hc
  · exact Or.inl (padZero_all_digits (natChars_all_digits _) 2 c hc)
  · exact Or.inr hc
  · exact Or.inl (padZero_all_digits (natChars_all_digits _) 3 c hc)

theorem parse_format (t : ℚ) (ht : 0 ≤ t) :
    parse_timecode (format_timecode t) =
      .ok ((⌊t / 3600⌋ : ℚ) * 3600 + (⌊qmod t 3600 / 60⌋ : ℚ) * 60 +
        ((round (qmod t 60 * 1000) : ℤ) : ℚ) / 1000) := by
  have hhour : (0 : ℤ) ≤ ⌊t / 3600⌋ := Int.floor_nonneg.mpr (by positivity)
  have hminute : (0 : ℤ) ≤ ⌊qmod t 3600 / 60⌋ :=
    Int.floor_nonneg.mpr (div_nonneg (qmod_nonneg (by norm_num)) (by norm_num))
  have hsecs : 0 ≤ qmod t 60 := qmod_nonneg (by norm_num)
  have hHd := intPad2_digits hhour
  have hMd := intPad2_digits hminute
  have hSd := secondsField_chars (qmod t 60)
  have hdata : (format_timecode t).data =
      intPad2 ⌊t / 3600⌋ ++ ':' :: intPad2 ⌊qmod t 3600 / 60⌋ ++ ':' ::
        secondsField (qmod t 60) := rfl
  unfold parse_timecode
  rw [hdata]
  have hnospace : ∀ c ∈ intPad2 ⌊t / 3600⌋ ++ ':' ::
      intPad2 ⌊qmod t 3600 / 60⌋ ++ ':' :: secondsField (qmod t 60),
      isSpaceC c = false := by
    intro c hc
    simp only [List.mem_append, List.mem_cons] at hc
    rcases hc with (hc | hc | hc) | hc | hc
    · exact isDigitC_not_space (hHd c hc)
    · subst hc; rfl
    · exact isDigitC_not_space (hMd c hc)
    · subst hc; rfl
    · rcases hSd c hc with h | h
      · exact isDigitC_not_space h
      · subst h; rfl
  rw [stripChars_eq_self hnospace]
  have hcolonH : ':' ∉ intPad2 ⌊t / 3600⌋ :=
    fun hm => isDigitC_ne_colon (hHd ':' hm) rfl
  have hcolonM : ':' ∉ intPad2 ⌊qmod t 3600 / 60⌋ :=
    fun hm => isDigitC_ne_colon (hMd ':' hm) rfl
  have hcolonS : ':' ∉ secondsField (qmod t 60) := by
    intro hm
    rcases hSd ':' hm with h | h
    · exact isDigitC_ne_colon h rfl
    · exact absurd h (by decide)
  rw [List.append_assoc, List.cons_append]
  rw [splitOnChar_append hcolonH, splitOnChar_append hcolonM,
    splitOnChar_not_mem hcolonS]
  simp only
  rw [parseInt_intPad2 hhour, parseInt_intPad2 hminute,
    parseFloat_secondsField _ hsecs]

theorem natChars_zero : natChars 0 = ['0'] := by
  rw [natChars, if_pos (by norm_num)]
  decide

theorem format_timecode_zero : format_timecode 0 = "00:00:00.000" := by
  have h0 : ⌊(0 : ℚ) / 3600⌋ = 0 := by norm_num
  have h0' : ⌊(0 : ℚ) / 60⌋ = 0 := by norm_num
  have h1 : qmod 0 3600 = 0 := by unfold qmod; norm_num
  have h2 : qmod 0 60 = 0 := by unfold qmod; norm_num
  have hip : intPad2 0 = ['0', '0'] := by
    rw [intPad2, if_neg (by norm_num), show (0 : ℤ).toNat = 0 from rfl,
      natChars_zero]
    decide
  have hsf : secondsField 0 = ['0', '0', '.', '0', '0', '0'] := by
    unfold secondsField
    rw [show ((0 : ℚ) * 1000) = 0 by norm_num, round_zero]
    show padZero 2 (natChars ((0 : ℤ).toNat / 1000)) ++ '.' ::
      padZero 3 (natChars ((0 : ℤ).toNat % 1000)) = _
    rw [show (0 : ℤ).toNat / 1000 = 0 from rfl,
      show (0 : ℤ).toNat % 1000 = 0 from rfl, natChars_zero]
    decide
  unfold format_timecode
  rw [h0, h1, h2, h0', hip, hsf]
  rfl

/-- C9: for every `t ≥ 0`, parsing the formatted timecode returns a value
within 0.001 s of `t` (the only drift is the rounding of the seconds
field to three decimals), and formatting is zero-padded `HH:MM:SS.mmm`
with `format_timecode 0 = "00:00:00.000"`. -/
theorem timecode_roundtrip (t : ℚ) (ht : 0 ≤ t) :
    (∃ r, parse_timecode (format_timecode t) = .ok r ∧ |r - t| ≤ 1 / 1000) ∧
    format_timecode 0 = "00:00:00.000" := by
  refine ⟨⟨_, parse_format t ht, ?_⟩, format_timecode_zero⟩
  have hkey := hours_minutes_secs t
  have h2 := abs_sub_round (qmod t 60 * 1000)
  have heq : (⌊t / 3600⌋ : ℚ) * 3600 + (⌊qmod t 3600 / 60⌋ : ℚ) * 60 +
      ((round (qmod t 60 * 1000) : ℤ) : ℚ) / 1000 - t =
      (((round (qmod t 60 * 1000) : ℤ) : ℚ) - qmod t 60 * 1000) / 1000 := by
    linear_combination hkey
  rw [heq, abs_div, abs_of_pos (show (0 : ℚ) < 1000 by norm_num),
    abs_sub_comm]
  linarith [h2]

/-- Witness for C9 at `t = 65.5`. -/
theorem timecode_roundtrip_witness :
    (0 : ℚ) ≤ 131 / 2 ∧
    (∃ r, parse_timecode (format_timecode (131 / 2)) = .ok r ∧
      |r - 131 / 2| ≤ 1 / 1000) :=
  ⟨by norm_num, (timecode_roundtrip (131 / 2) (by norm_num)).1⟩

/-- C10: `parse_timecode` validates only the colon-delimited field count
and numeric parseability; it performs no range or sign checks, so
`parse_timecode "10:99"` returns `699.0` and `parse_timecode "-5"`
returns `-5.0` instead of raising a parse error. -/
theorem parse_timecode_no_range_validation :
    parse_timecode "10:99" = .ok 699 ∧ parse_timecode "-5" = .ok (-5) := by
  constructor
  · unfold parse_timecode
    rw [show stripChars ("10:99" : String).data = ['1', '0', ':', '9', '9']
        by decide,
      show splitOnChar ':' ['1', '0', ':', '9', '9'] = [['1', '0'], ['9', '9']]
        by decide]
    simp only
    rw [show parseInt ['1', '0'] = some 10 by decide,
      show parseFloat ['9', '9'] = some ((99 : ℕ) : ℚ) from rfl]
    simp only
    norm_num
  · unfold parse_timecode
    rw [show stripChars ("-5" : String).data = ['-', '5'] by decide,
      show splitOnChar ':' ['-', '5'] = [['-', '5']] by decide]
    simp only
    rw [show parseFloat ['-', '5'] = some (-((5 : ℕ) : ℚ)) from rfl]
    simp only
    norm_num
